import Mathlib

/-!
# Verification of the field-extraction engine of `src/script.py`

This file is a shallow embedding of `extract_fields_from_text` from
`src/script.py` (the only function of the repository with non-trivial
decision logic) together with theorems settling the specification claims
about it.

Modelling conventions:
* A `Token` is one EasyOCR detection `(bbox, text, confidence)`.
  The bounding box is four 2-D points; only the first (top-left) point is
  read by the code (for the position sort key), but all four participate
  in structural equality, which `raw_results.index(result)` relies on.
  Coordinates and the confidence are modelled as `Int` (their only roles
  are ordering and structural equality; the extraction logic never does
  arithmetic on them).
* Python strings are modelled as Lean `String` / `List Char`.
* Python's Unicode digit class (used both by `str.isdigit` and by the
  regex class `\d`) is modelled by `isDigitChar`, covering the scripts
  this card uses (ASCII digits, Arabic-Indic and extended Arabic-Indic
  digits); Python's `\w` is modelled by `isWordChar` analogously.  None
  of the claims depends on the exact extent of these classes: they appear
  identically on the code side and the specification side of every
  theorem.
* `re.findall(r'\d+', s)[0]` is modelled by `firstDigitRun`;
  `re.search` of the two anchored digit patterns `\b\d{8}\b` and
  `\b\d{8,10}\b` by `searchRun 8 8` / `searchRun 8 10` (leftmost match,
  greedy with backtracking — for an all-digit run the match succeeds
  exactly when the maximal run starting at a word boundary has length in
  range and ends at a word boundary); `re.search` of the date patterns
  `\d{2}/\d{2}/\d{4}` and `\d{2}-\d{2}-\d{4}` by
  `searchFirst (dobAt sep)` (leftmost match of a fixed-width pattern).
* Python truthiness of an optional string (`if not dob:` etc.) is
  modelled by `pyFalsy` (true on `none` and on the empty string).
* `raw_results.index(result)` is modelled by `pyIndex` (index of the
  first structurally equal element).
* Python's `sorted` by key `(y, x)` is a stable sort; it is modelled by
  the stable insertion sort `sortPos`.
-/

/-- Python whitespace, as stripped by `str.strip()` and split on by
`str.split()` (the ASCII whitespace characters; the inputs of this
program contain no exotic Unicode spaces). -/
def isSpacePy (c : Char) : Bool :=
  c == ' ' || c == '\t' || c == '\n' || c == '\r' || c == '\x0b' || c == '\x0c'

/-- Python's decimal-digit class (for both `str.isdigit` and regex `\d`),
restricted to the scripts this card uses: ASCII digits, Arabic-Indic
digits U+0660–U+0669 and extended Arabic-Indic digits U+06F0–U+06F9. -/
def isDigitChar (c : Char) : Bool :=
  c.isDigit || (0x660 ≤ c.toNat && c.toNat ≤ 0x669)
    || (0x6F0 ≤ c.toNat && c.toNat ≤ 0x6F9)

/-- A character of the Arabic Unicode block U+0600–U+06FF: the class
matched by the regex `[؀-ۿ]` in the name heuristic. -/
def isArabicChar (c : Char) : Bool :=
  0x600 ≤ c.toNat && c.toNat ≤ 0x6FF

/-- Python's regex word-character class `\w`, restricted to the scripts
this card uses: letters (ASCII and the Arabic block), digits and `_`. -/
def isWordChar (c : Char) : Bool :=
  c.isAlpha || isDigitChar c || c == '_' || isArabicChar c

/-- `str.strip()`: drop leading and trailing whitespace. -/
def pyStrip (cs : List Char) : List Char :=
  ((cs.dropWhile isSpacePy).reverse.dropWhile isSpacePy).reverse

/-- `needle` occurs at the start of `hay` (character-wise). -/
def leadsWith : List Char → List Char → Bool
  | [], _ => true
  | _ :: _, [] => false
  | a :: as, b :: bs => a == b && leadsWith as bs

/-- Python's substring test `needle in hay`. -/
def containsSub (needle : List Char) : List Char → Bool
  | [] => needle.isEmpty
  | c :: t => leadsWith needle (c :: t) || containsSub needle t

/-- `any(indicator in text_block for indicator in inds)`. -/
def isLabel (inds : List String) (tb : List Char) : Bool :=
  inds.any fun i => containsSub i.data tb

/-- The first maximal digit run of a string:
`re.findall(r'\d+', s)[0]` when `findall` is non-empty, `none` otherwise. -/
def firstDigitRun : List Char → Option (List Char)
  | [] => none
  | c :: cs =>
    if isDigitChar c then some (c :: cs.takeWhile isDigitChar)
    else firstDigitRun cs

/-- Matching one date pattern `\d{2}<sep>\d{2}<sep>\d{4}` at the head of
the string, returning the ten matched characters. -/
def dobAt (sep : Char) : List Char → Option (List Char)
  | a :: b :: s1 :: c :: d :: s2 :: e :: f :: g :: h :: _ =>
    if isDigitChar a && isDigitChar b && s1 == sep &&
       isDigitChar c && isDigitChar d && s2 == sep &&
       isDigitChar e && isDigitChar f && isDigitChar g && isDigitChar h then
      some [a, b, s1, c, d, s2, e, f, g, h]
    else none
  | _ => none

/-- `re.search` of a fixed-width pattern: try the pattern at each start
position from the left, first success wins. -/
def searchFirst (p : List Char → Option (List Char)) : List Char → Option (List Char)
  | [] => none
  | c :: cs =>
    match p (c :: cs) with
    | some m => some m
    | none => searchFirst p cs

/-- The date-pattern loop of the source: try `\d{2}/\d{2}/\d{4}` on the
whole string, then `\d{2}-\d{2}-\d{4}`, first match wins (pattern-list
order before occurrence order). -/
def searchDob (cs : List Char) : Option (List Char) :=
  match searchFirst (dobAt '/') cs with
  | some m => some m
  | none => searchFirst (dobAt '-') cs

/-- `re.search(r'\b\d{lo,hi}\b', s)`: leftmost match of a word-bounded
digit run.  `prevWord` records whether the character before the current
position is a word character (initially `false`: the start of the string
is a boundary).  At a boundary position starting with a digit the greedy
engine takes the maximal digit run; since any shorter backtracked match
would be followed by a digit (a word character), the match succeeds
exactly when the maximal run has length in `[lo, hi]` and is followed by
a non-word character or the end of the string. -/
def searchRun (lo hi : Nat) (prevWord : Bool) : List Char → Option (List Char)
  | [] => none
  | c :: cs =>
    if !prevWord && isDigitChar c then
      let run := c :: cs.takeWhile isDigitChar
      let rest := cs.dropWhile isDigitChar
      if lo ≤ run.length && run.length ≤ hi &&
         (match rest.head? with
          | none => true
          | some d => !isWordChar d) then
        some run
      else searchRun lo hi (isWordChar c) cs
    else searchRun lo hi (isWordChar c) cs

/-- `len(text_block.split())`: the number of maximal non-whitespace runs. -/
def wordCount (cs : List Char) : Nat :=
  (cs.foldl
    (fun (st : Nat × Bool) c =>
      if isSpacePy c then (st.1, false)
      else if st.2 then st else (st.1 + 1, true))
    (0, false)).1

/-- One EasyOCR detection `(bbox, text, confidence)`: four corner points,
the recognized text, and the confidence score. -/
structure Token where
  bbox : (Int × Int) × (Int × Int) × (Int × Int) × (Int × Int)
  text : String
  conf : Int
deriving DecidableEq

/-- The result record of the extraction: the three optional fields. -/
structure ExtractionOutcome where
  name : Option String
  dob : Option String
  idNumber : Option String
deriving DecidableEq

/-- `name_indicators` of the source. -/
def nameIndicators : List String :=
  ["الاسم", "اسم", "Name", "الاسم الكامل", "Full Name"]

/-- `dob_indicators` of the source. -/
def dobIndicators : List String :=
  ["تاريخ الميلاد", "Date of Birth", "DATE OF BIRTH"]

/-- `id_indicators` of the source. -/
def idIndicators : List String :=
  ["الرقم المدني", "CIVIL NUMBER"]

/-- Python truthiness of an optional string: `not x` is true for `None`
and for the empty string. -/
def pyFalsy : Option String → Bool
  | none => true
  | some s => s.data.isEmpty

/-- `raw_results.index(result)`: the index of the first element that is
structurally equal to `t`. -/
def pyIndex (ts : List Token) (t : Token) : Nat :=
  ts.findIdx fun x => decide (x = t)

/-- The sort key of `sorted(raw_results, key=lambda x: (x[0][0][1], x[0][0][0]))`:
the y coordinate of the first bounding-box point, then its x coordinate. -/
def posKey (t : Token) : Int × Int :=
  (t.bbox.1.2, t.bbox.1.1)

/-- Strict lexicographic comparison of position keys. -/
def posLt (u t : Token) : Bool :=
  decide ((posKey u).1 < (posKey t).1) ||
    (decide ((posKey u).1 = (posKey t).1) && decide ((posKey u).2 < (posKey t).2))

/-- Stable insertion of `t` into an already sorted list: `t` goes before
the first element that is not strictly below it, so that on equal keys
the element arriving earlier stays first — the stability guarantee of
Python's `sorted`. -/
def insertPos (t : Token) : List Token → List Token
  | [] => [t]
  | u :: us => if posLt u t then u :: insertPos t us else t :: u :: us

/-- `sorted_results`: stable sort of the received sequence by `(y, x)`. -/
def sortPos : List Token → List Token
  | [] => []
  | t :: ts => insertPos t (sortPos ts)

/-- The update of `id_number` performed by one Pass-1 iteration of the
source on token `t` (the `if any(indicator in text_block ...)` block for
`id_indicators`): digits in the same stripped token first, else digits in
the token after the first structurally equal occurrence of `t`, else the
previous value. -/
def idStep (all : List Token) (idn : Option String) (t : Token) : Option String :=
  let tb := pyStrip t.text.data
  if isLabel idIndicators tb then
    match firstDigitRun tb with
    | some r => some (String.mk r)
    | none =>
      let idx := pyIndex all t
      if idx + 1 < all.length then
        match all.get? (idx + 1) with
        | some nt =>
          match firstDigitRun nt.text.data with
          | some r => some (String.mk r)
          | none => idn
        | none => idn
      else idn
  else idn

/-- The update of `dob` performed by one Pass-1 iteration of the source
on token `t`: the date-pattern loop on the same stripped token always
runs (and overwrites), while the next-token lookup is guarded by
`if not dob:`. -/
def dobStep (all : List Token) (dob : Option String) (t : Token) : Option String :=
  let tb := pyStrip t.text.data
  if isLabel dobIndicators tb then
    match searchDob tb with
    | some m => some (String.mk m)
    | none =>
      if pyFalsy dob then
        let idx := pyIndex all t
        if idx + 1 < all.length then
          match all.get? (idx + 1) with
          | some nt =>
            match searchDob nt.text.data with
            | some m => some (String.mk m)
            | none => dob
          | none => dob
        else dob
      else dob
  else dob

/-- One iteration of the Pass-1 loop: the ID block runs, then the DOB
block; the two blocks read and write disjoint variables. -/
def pass1Step (all : List Token) (st : Option String × Option String) (t : Token) :
    Option String × Option String :=
  (dobStep all st.1 t, idStep all st.2 t)

/-- Pass 1 of the source: the label-proximity loop over the received
sequence, with state `(dob, id_number)` initialized to `(None, None)`. -/
def pass1 (ts : List Token) : Option String × Option String :=
  ts.foldl (pass1Step ts) (none, none)

/-- Pass 2 for the ID number: scan tokens in received order; for each
token try `\b\d{8}\b` then `\b\d{8,10}\b`; first match wins and stops the
scan. -/
def pass2Id : List Token → Option String
  | [] => none
  | t :: ts =>
    match searchRun 8 8 false t.text.data with
    | some r => some (String.mk r)
    | none =>
      match searchRun 8 10 false t.text.data with
      | some r => some (String.mk r)
      | none => pass2Id ts

/-- Pass 2 for the date of birth: scan tokens in received order; for each
token try the two date patterns in order; first match wins and stops the
scan. -/
def pass2Dob : List Token → Option String
  | [] => none
  | t :: ts =>
    match searchDob t.text.data with
    | some m => some (String.mk m)
    | none => pass2Dob ts

/-- The candidate criteria of the name heuristic, on the stripped text:
contains an Arabic-block character, splits into 2–4 words, contains no
digit, and contains no indicator string of any of the three fields. -/
def nameQualifies (t : Token) : Bool :=
  let tb := pyStrip t.text.data
  tb.any isArabicChar &&
  (2 ≤ wordCount tb && wordCount tb ≤ 4) &&
  !(tb.any isDigitChar) &&
  !(isLabel (nameIndicators ++ dobIndicators ++ idIndicators) tb)

/-- The name heuristic loop of the source: over the position-sorted
sequence, the first token satisfying all candidate criteria gives the
name (its stripped text); the loop stops on the first hit. -/
def namePass : List Token → Option String
  | [] => none
  | t :: ts =>
    if nameQualifies t then some (String.mk (pyStrip t.text.data))
    else namePass ts

/-- `extract_fields_from_text` of `src/script.py` (its `text` parameter
is unused by the source): Pass 1 (label proximity) over the received
sequence, then Pass 2 (global regex fallback) for each field still falsy,
then the name heuristic over the position-sorted sequence. -/
def extract_fields_from_text (ts : List Token) : ExtractionOutcome :=
  let st := pass1 ts
  let dob := st.1
  let idn := st.2
  let idn :=
    if pyFalsy idn then
      match pass2Id ts with
      | some v => some v
      | none => idn
    else idn
  let dob :=
    if pyFalsy dob then
      match pass2Dob ts with
      | some v => some v
      | none => dob
    else dob
  let name := namePass (sortPos ts)
  ⟨name, dob, idn⟩

/-! ## Specification-side definitions

The following definitions restate parts of the algorithm in the closed
form used by the claims (per-token candidates, first/last candidate of a
list, substring occurrence, a positional variant of the adjacent-token
lookup).  They are compared against the embedded code by the theorems
below. -/

/-- The ID-number value that Pass 1 would extract at token `t` (of the
sequence `all`), independent of the running state: digits of the same
stripped token, else digits of the token after the first structurally
equal occurrence of `t`, else nothing. -/
def candId (all : List Token) (t : Token) : Option String :=
  let tb := pyStrip t.text.data
  if isLabel idIndicators tb then
    match firstDigitRun tb with
    | some r => some (String.mk r)
    | none =>
      let idx := pyIndex all t
      if idx + 1 < all.length then
        match all.get? (idx + 1) with
        | some nt => (firstDigitRun nt.text.data).map String.mk
        | none => none
      else none
  else none

/-- The date-of-birth value that the same-token part of Pass 1 would
extract at token `t`: a date-pattern match inside the stripped label
token itself. -/
def candDobSame (t : Token) : Option String :=
  let tb := pyStrip t.text.data
  if isLabel dobIndicators tb then (searchDob tb).map String.mk
  else none

/-- The date-of-birth value that the next-token part of Pass 1 would
extract at token `t`: tried only when the label token itself has no
date-pattern match, against the token after the first structurally equal
occurrence of `t`. -/
def candDobNext (all : List Token) (t : Token) : Option String :=
  let tb := pyStrip t.text.data
  if isLabel dobIndicators tb && (searchDob tb).isNone then
    let idx := pyIndex all t
    if idx + 1 < all.length then
      match all.get? (idx + 1) with
      | some nt => (searchDob nt.text.data).map String.mk
      | none => none
    else none
  else none

/-- The last token of the list yielding a candidate under `f`, in
received order. -/
def lastCand (f : Token → Option String) : List Token → Option String
  | [] => none
  | t :: ts =>
    match lastCand f ts with
    | some v => some v
    | none => f t

/-- The first token of the list yielding a candidate under `f`, in
received order. -/
def firstCand (f : Token → Option String) : List Token → Option String
  | [] => none
  | t :: ts =>
    match f t with
    | some v => some v
    | none => firstCand f ts

/-- `v` occurs as a contiguous substring (a character segment) of `cs`. -/
def SegIn (v cs : List Char) : Prop :=
  ∃ pre suf, cs = pre ++ v ++ suf

/-- Modelled from the claim's words (C6): the Pass-1 ID lookup at the
token sitting at position `i`, consulting the token at position `i + 1`
(the current token's actual successor) rather than the successor of the
first structurally equal occurrence. -/
def candIdPositionalAt (ts : List Token) (i : Nat) (t : Token) : Option String :=
  let tb := pyStrip t.text.data
  if isLabel idIndicators tb then
    match firstDigitRun tb with
    | some r => some (String.mk r)
    | none =>
      if i + 1 < ts.length then
        match ts.get? (i + 1) with
        | some nt => (firstDigitRun nt.text.data).map String.mk
        | none => none
      else none
  else none

/-- Modelled from the claim's words (C6): Pass 1 for the ID number with
the positional adjacent-token lookup, same overwrite behaviour as the
code otherwise. -/
def pass1IdPositional (ts : List Token) : Option String :=
  ts.enum.foldl
    (fun s p =>
      match candIdPositionalAt ts p.1 p.2 with
      | some v => some v
      | none => s)
    none

/-! ## Concrete inputs used by the scenario claims and witnesses -/

/-- A token at row `y`, column `x`, with the given text (an arbitrary
rectangular box whose top-left corner is `(x, y)`, confidence 9). -/
def mkTok (y x : Int) (s : String) : Token :=
  ⟨((x, y), (x + 10, y), (x + 10, y + 5), (x, y + 5)), s, 9⟩

/-- End-to-end scenario A: a civil-number label followed by the number. -/
def exA : List Token := [mkTok 0 0 "CIVIL NUMBER", mkTok 10 0 "12345678"]

/-- End-to-end scenario B: a date-of-birth label followed by the date. -/
def exB : List Token := [mkTok 0 0 "Date of Birth", mkTok 10 0 "15/03/1990"]

/-- A lone nine-digit token, matching only the looser ID pattern. -/
def ex5 : List Token := [mkTok 0 0 "123456789"]

/-- Two ID label tokens and two DOB label tokens, each with extractable
same-token values: the input refuting first-label-occurrence-wins. -/
def exC1 : List Token :=
  [mkTok 0 0 "CIVIL NUMBER 11111111", mkTok 10 0 "CIVIL NUMBER 22222222",
   mkTok 20 0 "Date of Birth 01/01/1990", mkTok 30 0 "DATE OF BIRTH 02/02/1991"]

/-- A label token duplicated verbatim later in the sequence, whose
actual successor ("1234") differs from the successor of its first
occurrence ("hello"). -/
def ex6 : List Token :=
  [mkTok 0 0 "CIVIL NUMBER", mkTok 10 0 "hello",
   mkTok 0 0 "CIVIL NUMBER", mkTok 30 0 "1234"]

/-- Three tokens whose final extension by a duplicate label token changes
the extracted ID number. -/
def ex8pre : List Token :=
  [mkTok 0 0 "CIVIL NUMBER", mkTok 10 0 "x 111 y", mkTok 20 0 "CIVIL NUMBER 999"]

/-- `ex8pre` extended by a verbatim duplicate of its first (label) token:
a sequence whose last element is a label token without a same-token
value. -/
def ex8 : List Token := ex8pre ++ [mkTok 0 0 "CIVIL NUMBER"]

/-! ## Helper lemmas -/

/-- The two state components of the Pass-1 loop evolve independently:
the ID block never reads `dob` and the DOB block never reads
`id_number`. -/
theorem foldl_pass1Step_split (all : List Token) (l : List Token)
    (d i : Option String) :
    l.foldl (pass1Step all) (d, i) =
      (l.foldl (dobStep all) d, l.foldl (idStep all) i) := by
  induction l generalizing d i with
  | nil => rfl
  | cons t ts ih => simpa [pass1Step] using ih (dobStep all d t) (idStep all i t)

/-- The ID block of one Pass-1 iteration is the state update by the
state-independent candidate `candId`. -/
theorem idStep_eq_cand (all : List Token) (i : Option String) (t : Token) :
    idStep all i t =
      match candId all t with
      | some v => some v
      | none => i := by
  simp only [idStep, candId]
  by_cases h1 : isLabel idIndicators (pyStrip t.text.data) = true
  · simp only [h1, if_true]
    cases h2 : firstDigitRun (pyStrip t.text.data) with
    | some r => simp [h2]
    | none =>
      simp only [h2]
      by_cases h3 : pyIndex all t + 1 < all.length
      · simp only [h3, if_true]
        cases h4 : all.get? (pyIndex all t + 1) with
        | none => simp [h4]
        | some nt =>
          simp only [h4]
          cases h5 : firstDigitRun nt.text.data <;> simp [h5]
      · simp [h3]
  · simp [h1]

/-- The running state of an update-by-candidate fold ends as the last
candidate, or the initial state when no token yields one. -/
theorem foldl_update_eq_lastCand (f : Token → Option String)
    (l : List Token) (i : Option String) :
    l.foldl (fun s t => match f t with | some v => some v | none => s) i =
      match lastCand f l with
      | some v => some v
      | none => i := by
  induction l generalizing i with
  | nil => rfl
  | cons t ts ih =>
    simp only [List.foldl_cons, lastCand, ih]
    cases h1 : lastCand f ts <;> cases h2 : f t <;> simp

/-- Pass 1 leaves in `id_number` the value of the last label token (in
received order) yielding an extractable ID candidate. -/
theorem pass1_id_eq (ts : List Token) :
    (pass1 ts).2 = lastCand (candId ts) ts := by
  have hsplit := foldl_pass1Step_split ts ts none none
  have hfun : idStep ts = fun s t =>
      match candId ts t with | some v => some v | none => s := by
    funext s t
    exact idStep_eq_cand ts s t
  have := foldl_update_eq_lastCand (candId ts) ts none
  simp only [pass1, hsplit, hfun, this]
  cases lastCand (candId ts) ts <;> rfl

/-- A match of one date pattern at the head of a string is an initial
segment of it, and non-empty. -/
theorem dobAt_shape (sep : Char) (l m : List Char) (h : dobAt sep l = some m) :
    (∃ suf, l = m ++ suf) ∧ m ≠ [] := by
  unfold dobAt at h
  split at h
  · split at h
    · cases h
      exact ⟨⟨_, rfl⟩, by simp⟩
    · cases h
  · cases h

/-- `re.search` of a head-anchored pattern returns a segment of the
searched string. -/
theorem searchFirst_segIn (p : List Char → Option (List Char))
    (hp : ∀ l m, p l = some m → (∃ suf, l = m ++ suf) ∧ m ≠ [])
    (cs m : List Char) (h : searchFirst p cs = some m) :
    SegIn m cs ∧ m ≠ [] := by
  induction cs with
  | nil => cases h
  | cons c cs ih =>
    rw [searchFirst] at h
    cases hp2 : p (c :: cs) with
    | some m2 =>
      rw [hp2] at h
      cases h
      obtain ⟨⟨suf, hsuf⟩, hne⟩ := hp (c :: cs) m hp2
      exact ⟨⟨[], suf, by simpa using hsuf⟩, hne⟩
    | none =>
      rw [hp2] at h
      obtain ⟨⟨pre, suf, hps⟩, hne⟩ := ih h
      exact ⟨⟨c :: pre, suf, by simp [hps]⟩, hne⟩

/-- A date-pattern search result is a non-empty segment of the searched
string. -/
theorem searchDob_segIn (cs m : List Char) (h : searchDob cs = some m) :
    SegIn m cs ∧ m ≠ [] := by
  unfold searchDob at h
  cases h1 : searchFirst (dobAt '/') cs with
  | some m2 =>
    rw [h1] at h
    cases h
    exact searchFirst_segIn _ (fun l m => dobAt_shape '/' l m) cs m h1
  | none =>
    rw [h1] at h
    exact searchFirst_segIn _ (fun l m => dobAt_shape '-' l m) cs m h

/-- The first digit run of a string is a non-empty segment of it. -/
theorem firstDigitRun_segIn (cs r : List Char) (h : firstDigitRun cs = some r) :
    SegIn r cs ∧ r ≠ [] := by
  induction cs with
  | nil => cases h
  | cons c cs ih =>
    rw [firstDigitRun] at h
    by_cases hd : isDigitChar c = true
    · rw [if_pos hd] at h
      cases h
      refine ⟨⟨[], cs.dropWhile isDigitChar, ?_⟩, by simp⟩
      simp [List.takeWhile_append_dropWhile]
    · rw [if_neg hd] at h
      obtain ⟨⟨pre, suf, hps⟩, hne⟩ := ih h
      exact ⟨⟨c :: pre, suf, by simp [hps]⟩, hne⟩

/-- A word-bounded digit-run search result is a non-empty segment of the
searched string. -/
theorem searchRun_segIn (lo hi : Nat) (pw : Bool) (cs r : List Char)
    (h : searchRun lo hi pw cs = some r) : SegIn r cs ∧ r ≠ [] := by
  induction cs generalizing pw with
  | nil => cases h
  | cons c cs ih =>
    simp only [searchRun] at h
    split at h
    · split at h
      · cases h
        refine ⟨⟨[], cs.dropWhile isDigitChar, ?_⟩, by simp⟩
        simp [List.takeWhile_append_dropWhile]
      · obtain ⟨⟨pre, suf, hps⟩, hne⟩ := ih _ h
        exact ⟨⟨c :: pre, suf, by simp [hps]⟩, hne⟩
    · obtain ⟨⟨pre, suf, hps⟩, hne⟩ := ih _ h
      exact ⟨⟨c :: pre, suf, by simp [hps]⟩, hne⟩

/-- The stripped string is a segment of the original. -/
theorem segIn_pyStrip (cs : List Char) : SegIn (pyStrip cs) cs := by
  have h1 : ∀ (l : List Char),
      (l.reverse.dropWhile isSpacePy).reverse ++ (l.reverse.takeWhile isSpacePy).reverse = l := by
    intro l
    rw [← List.reverse_append, List.takeWhile_append_dropWhile, List.reverse_reverse]
  refine ⟨cs.takeWhile isSpacePy,
    ((cs.dropWhile isSpacePy).reverse.takeWhile isSpacePy).reverse, ?_⟩
  rw [pyStrip, List.append_assoc, h1, List.takeWhile_append_dropWhile]

/-- Segment occurrence is transitive. -/
theorem segIn_trans (v cs ds : List Char) (h1 : SegIn v cs) (h2 : SegIn cs ds) :
    SegIn v ds := by
  obtain ⟨p1, s1, e1⟩ := h1
  obtain ⟨p2, s2, e2⟩ := h2
  exact ⟨p2 ++ p1, s1 ++ s2, by simp [e2, e1]⟩

/-- Case analysis of an extracted ID candidate: it is the first digit
run of the stripped label token, or the first digit run of the token
after the first structurally equal occurrence of the label token. -/
theorem candId_cases (all : List Token) (t : Token) (v : String)
    (h : candId all t = some v) :
    (∃ r, firstDigitRun (pyStrip t.text.data) = some r ∧ v = String.mk r) ∨
    (∃ nt r, all.get? (pyIndex all t + 1) = some nt ∧
      firstDigitRun nt.text.data = some r ∧ v = String.mk r) := by
  simp only [candId] at h
  by_cases h1 : isLabel idIndicators (pyStrip t.text.data) = true
  · rw [if_pos h1] at h
    cases h2 : firstDigitRun (pyStrip t.text.data) with
    | some r =>
      simp only [h2] at h
      cases h
      exact Or.inl ⟨r, rfl, rfl⟩
    | none =>
      simp only [h2] at h
      by_cases h3 : pyIndex all t + 1 < all.length
      · rw [if_pos h3] at h
        cases h4 : all.get? (pyIndex all t + 1) with
        | none =>
          simp only [h4] at h
          cases h
        | some nt =>
          simp only [h4] at h
          cases h5 : firstDigitRun nt.text.data with
          | none =>
            simp only [h5, Option.map_none'] at h
            cases h
          | some r =>
            simp only [h5, Option.map_some'] at h
            cases h
            exact Or.inr ⟨nt, r, rfl, h5, rfl⟩
      · rw [if_neg h3] at h
        cases h
  · rw [if_neg h1] at h
    cases h

/-- An extracted ID candidate is a non-empty segment of the label
token's text or of some token's text of the sequence. -/
theorem candId_segIn (all : List Token) (t : Token) (v : String)
    (h : candId all t = some v) :
    v.data ≠ [] ∧
      (SegIn v.data t.text.data ∨ ∃ nt, nt ∈ all ∧ SegIn v.data nt.text.data) := by
  rcases candId_cases all t v h with ⟨r, h2, rfl⟩ | ⟨nt, r, h4, h5, rfl⟩
  · obtain ⟨hseg, hne⟩ := firstDigitRun_segIn _ _ h2
    exact ⟨hne, Or.inl (segIn_trans _ _ _ hseg (segIn_pyStrip _))⟩
  · obtain ⟨hseg, hne⟩ := firstDigitRun_segIn _ _ h5
    exact ⟨hne, Or.inr ⟨nt, List.get?_mem h4, hseg⟩⟩

/-- A same-token DOB candidate is a non-empty segment of the label
token's text. -/
theorem candDobSame_spec (t : Token) (v : String)
    (h : candDobSame t = some v) : v.data ≠ [] ∧ SegIn v.data t.text.data := by
  simp only [candDobSame] at h
  by_cases h1 : isLabel dobIndicators (pyStrip t.text.data) = true
  · rw [if_pos h1] at h
    cases h2 : searchDob (pyStrip t.text.data) with
    | none =>
      simp only [h2, Option.map_none'] at h
      cases h
    | some m =>
      simp only [h2, Option.map_some'] at h
      cases h
      obtain ⟨hseg, hne⟩ := searchDob_segIn _ _ h2
      exact ⟨hne, segIn_trans _ _ _ hseg (segIn_pyStrip _)⟩
  · rw [if_neg h1] at h
    cases h

/-- A next-token DOB candidate is a non-empty segment of the text of
some token of the sequence. -/
theorem candDobNext_spec (all : List Token) (t : Token) (v : String)
    (h : candDobNext all t = some v) :
    v.data ≠ [] ∧ ∃ nt, nt ∈ all ∧ SegIn v.data nt.text.data := by
  simp only [candDobNext] at h
  by_cases h1 : (isLabel dobIndicators (pyStrip t.text.data) &&
      (searchDob (pyStrip t.text.data)).isNone) = true
  · rw [if_pos h1] at h
    by_cases h3 : pyIndex all t + 1 < all.length
    · rw [if_pos h3] at h
      cases h4 : all.get? (pyIndex all t + 1) with
      | none =>
        simp only [h4] at h
        cases h
      | some nt =>
        simp only [h4] at h
        cases h5 : searchDob nt.text.data with
        | none =>
          simp only [h5, Option.map_none'] at h
          cases h
        | some m =>
          simp only [h5, Option.map_some'] at h
          cases h
          obtain ⟨hseg, hne⟩ := searchDob_segIn _ _ h5
          exact ⟨hne, nt, List.get?_mem h4, hseg⟩
    · rw [if_neg h3] at h
      cases h
  · rw [if_neg h1] at h
    cases h

/-- The DOB block of one Pass-1 iteration: the same-token candidate
overwrites unconditionally; the next-token candidate applies only to a
falsy state. -/
theorem dobStep_eq_cand (all : List Token) (d : Option String) (t : Token) :
    dobStep all d t =
      match candDobSame t with
      | some v => some v
      | none =>
        if pyFalsy d then
          match candDobNext all t with
          | some v => some v
          | none => d
        else d := by
  simp only [dobStep, candDobSame, candDobNext]
  by_cases h1 : isLabel dobIndicators (pyStrip t.text.data) = true
  · rw [if_pos h1]
    cases h2 : searchDob (pyStrip t.text.data) with
    | some m => simp [h1, h2]
    | none =>
      simp only [h1, h2, Option.map_none', Option.isNone_none, Bool.and_true, if_pos h1]
      by_cases h3 : pyFalsy d = true
      · rw [if_pos h3, if_pos h3]
        by_cases h4 : pyIndex all t + 1 < all.length
        · rw [if_pos h4, if_pos h4]
          cases h5 : all.get? (pyIndex all t + 1) with
          | none => simp [h5]
          | some nt =>
            simp only [h5]
            cases h6 : searchDob nt.text.data with
            | none => simp [h6]
            | some m => simp [h6]
        · rw [if_neg h4, if_neg h4]
          simp
      · rw [if_neg h3, if_neg h3]
        simp
  · rw [if_neg h1]
    simp only [h1, Bool.false_and, Bool.false_eq_true, if_false]
    by_cases h3 : pyFalsy d = true
    · rw [if_pos h3]
    · rw [if_neg h3]

/-- Running the Pass-1 DOB updates over a list: the result is the
same-token match of the last label token having one; otherwise the
initial value if it was non-falsy; otherwise the first successful
next-token lookup. -/
theorem foldl_dobStep_eq (all : List Token) (l : List Token) (d : Option String)
    (hd : d = none ∨ ∃ w, d = some w ∧ w.data ≠ []) :
    l.foldl (dobStep all) d =
      match lastCand candDobSame l with
      | some v => some v
      | none =>
        match d with
        | some w => some w
        | none => firstCand (candDobNext all) l := by
  induction l generalizing d with
  | nil => rcases hd with rfl | ⟨w, rfl, hw⟩ <;> rfl
  | cons t ts ih =>
    rw [List.foldl_cons, dobStep_eq_cand, lastCand, firstCand]
    cases hsm : candDobSame t with
    | some v =>
      have hv := (candDobSame_spec t v hsm).1
      rw [ih (some v) (Or.inr ⟨v, rfl, hv⟩)]
      cases lastCand candDobSame ts <;> rfl
    | none =>
      by_cases h3 : pyFalsy d = true
      · rw [if_pos h3]
        have hdnone : d = none := by
          rcases hd with rfl | ⟨w, rfl, hw⟩
          · rfl
          · simp only [pyFalsy] at h3
            cases hwv : w.data with
            | nil => exact absurd hwv hw
            | cons c cs => rw [hwv] at h3; cases h3
        subst hdnone
        cases hnm : candDobNext all t with
        | some v =>
          have hv := (candDobNext_spec all t v hnm).1
          rw [ih (some v) (Or.inr ⟨v, rfl, hv⟩)]
          cases lastCand candDobSame ts <;> rfl
        | none =>
          rw [ih none (Or.inl rfl)]
          cases lastCand candDobSame ts <;> rfl
      · rw [if_neg h3]
        have hdw : ∃ w, d = some w ∧ w.data ≠ [] := by
          rcases hd with rfl | hw
          · exact absurd rfl h3
          · exact hw
        rw [ih d hd]
        obtain ⟨w, rfl, hw⟩ := hdw
        cases lastCand candDobSame ts <;> rfl

/-- Pass 1 leaves in `dob` the value of the last label token with a
same-token date match, else the first successful next-token lookup. -/
theorem pass1_dob_eq (ts : List Token) :
    (pass1 ts).1 =
      match lastCand candDobSame ts with
      | some v => some v
      | none => firstCand (candDobNext ts) ts := by
  have hsplit := foldl_pass1Step_split ts ts none none
  simp only [pass1, hsplit]
  rw [foldl_dobStep_eq ts ts none (Or.inl rfl)]

/-- A last-candidate value is the candidate of some member. -/
theorem lastCand_exists (f : Token → Option String) (l : List Token) (v : String)
    (h : lastCand f l = some v) : ∃ t, t ∈ l ∧ f t = some v := by
  induction l with
  | nil => cases h
  | cons t ts ih =>
    rw [lastCand] at h
    cases h1 : lastCand f ts with
    | some u =>
      rw [h1] at h
      cases h
      obtain ⟨u', hu', hf⟩ := ih h1
      exact ⟨u', List.mem_cons_of_mem _ hu', hf⟩
    | none =>
      rw [h1] at h
      exact ⟨t, List.mem_cons_self _ _, h⟩

/-- A first-candidate value is the candidate of some member. -/
theorem firstCand_exists (f : Token → Option String) (l : List Token) (v : String)
    (h : firstCand f l = some v) : ∃ t, t ∈ l ∧ f t = some v := by
  induction l with
  | nil => cases h
  | cons t ts ih =>
    rw [firstCand] at h
    cases h1 : f t with
    | some u =>
      rw [h1] at h
      cases h
      exact ⟨t, List.mem_cons_self _ _, h1⟩
    | none =>
      rw [h1] at h
      obtain ⟨u', hu', hf⟩ := ih h
      exact ⟨u', List.mem_cons_of_mem _ hu', hf⟩

/-- A non-empty string is not falsy. -/
theorem pyFalsy_some_false (v : String) (h : v.data ≠ []) :
    pyFalsy (some v) = false := by
  cases hv : v.data with
  | nil => exact absurd hv h
  | cons c t => simp [pyFalsy, hv]

/-- Any ID number produced by Pass 1 is a non-empty string. -/
theorem pass1_id_ne_nil (ts : List Token) (v : String)
    (h : (pass1 ts).2 = some v) : v.data ≠ [] := by
  rw [pass1_id_eq] at h
  obtain ⟨t, _, hf⟩ := lastCand_exists _ _ _ h
  exact (candId_segIn ts t v hf).1

/-- Any date of birth produced by Pass 1 is a non-empty string. -/
theorem pass1_dob_ne_nil (ts : List Token) (v : String)
    (h : (pass1 ts).1 = some v) : v.data ≠ [] := by
  rw [pass1_dob_eq] at h
  cases h1 : lastCand candDobSame ts with
  | some u =>
    rw [h1] at h
    cases h
    obtain ⟨t, _, hf⟩ := lastCand_exists _ _ _ h1
    exact (candDobSame_spec t _ hf).1
  | none =>
    rw [h1] at h
    obtain ⟨t, _, hf⟩ := firstCand_exists _ _ _ h
    exact (candDobNext_spec ts t v hf).1

/-- The ID number returned when Pass 1 produced a value: Pass 2 does not
run and the Pass-1 value is returned. -/
theorem extract_id_of_pass1_some (ts : List Token) (v : String)
    (h : (pass1 ts).2 = some v) :
    (extract_fields_from_text ts).idNumber = some v := by
  have hf : pyFalsy (some v) = false :=
    pyFalsy_some_false v (pass1_id_ne_nil ts v h)
  simp [extract_fields_from_text, h, hf]

/-- The ID number returned when Pass 1 produced nothing: it is exactly
the Pass-2 result. -/
theorem extract_id_of_pass1_none (ts : List Token)
    (h : (pass1 ts).2 = none) :
    (extract_fields_from_text ts).idNumber = pass2Id ts := by
  simp only [extract_fields_from_text, h, pyFalsy, if_true]
  cases h2 : pass2Id ts <;> simp [h2]

/-- The date of birth returned when Pass 1 produced a value: Pass 2 does
not run and the Pass-1 value is returned. -/
theorem extract_dob_of_pass1_some (ts : List Token) (v : String)
    (h : (pass1 ts).1 = some v) :
    (extract_fields_from_text ts).dob = some v := by
  have hf : pyFalsy (some v) = false :=
    pyFalsy_some_false v (pass1_dob_ne_nil ts v h)
  simp [extract_fields_from_text, h, hf]

/-- The date of birth returned when Pass 1 produced nothing: it is
exactly the Pass-2 result. -/
theorem extract_dob_of_pass1_none (ts : List Token)
    (h : (pass1 ts).1 = none) :
    (extract_fields_from_text ts).dob = pass2Dob ts := by
  simp only [extract_fields_from_text, h, pyFalsy, if_true]
  cases h2 : pass2Dob ts <;> simp [h2]

/-- A Pass-2 ID result is a non-empty segment of some token's text. -/
theorem pass2Id_spec (ts : List Token) (v : String) (h : pass2Id ts = some v) :
    v.data ≠ [] ∧ ∃ t, t ∈ ts ∧ SegIn v.data t.text.data := by
  induction ts with
  | nil => cases h
  | cons t ts ih =>
    rw [pass2Id] at h
    cases h1 : searchRun 8 8 false t.text.data with
    | some r =>
      rw [h1] at h
      cases h
      obtain ⟨hseg, hne⟩ := searchRun_segIn _ _ _ _ _ h1
      exact ⟨hne, t, List.mem_cons_self _ _, hseg⟩
    | none =>
      rw [h1] at h
      cases h2 : searchRun 8 10 false t.text.data with
      | some r =>
        rw [h2] at h
        cases h
        obtain ⟨hseg, hne⟩ := searchRun_segIn _ _ _ _ _ h2
        exact ⟨hne, t, List.mem_cons_self _ _, hseg⟩
      | none =>
        rw [h2] at h
        obtain ⟨hne, t', ht', hseg⟩ := ih h
        exact ⟨hne, t', List.mem_cons_of_mem _ ht', hseg⟩

/-- A Pass-2 DOB result is a non-empty segment of some token's text. -/
theorem pass2Dob_spec (ts : List Token) (v : String) (h : pass2Dob ts = some v) :
    v.data ≠ [] ∧ ∃ t, t ∈ ts ∧ SegIn v.data t.text.data := by
  induction ts with
  | nil => cases h
  | cons t ts ih =>
    rw [pass2Dob] at h
    cases h1 : searchDob t.text.data with
    | some m =>
      rw [h1] at h
      cases h
      obtain ⟨hseg, hne⟩ := searchDob_segIn _ _ h1
      exact ⟨hne, t, List.mem_cons_self _ _, hseg⟩
    | none =>
      rw [h1] at h
      obtain ⟨hne, t', ht', hseg⟩ := ih h
      exact ⟨hne, t', List.mem_cons_of_mem _ ht', hseg⟩

/-- The name loop is the first-match search over its input list. -/
theorem namePass_eq_find (l : List Token) :
    namePass l = (l.find? nameQualifies).map fun t => String.mk (pyStrip t.text.data) := by
  induction l with
  | nil => rfl
  | cons t ts ih =>
    rw [namePass, List.find?]
    by_cases h : nameQualifies t = true
    · rw [if_pos h, h]
      rfl
    · rw [if_neg h, Bool.not_eq_true] at *
      rw [h, ih]

/-- A name produced by the name loop is the stripped text of a member of
its input list. -/
theorem namePass_exists (l : List Token) (v : String) (h : namePass l = some v) :
    ∃ t, t ∈ l ∧ v = String.mk (pyStrip t.text.data) := by
  induction l with
  | nil => cases h
  | cons t ts ih =>
    rw [namePass] at h
    by_cases h1 : nameQualifies t = true
    · rw [if_pos h1] at h
      cases h
      exact ⟨t, List.mem_cons_self _ _, rfl⟩
    · rw [if_neg h1] at h
      obtain ⟨t', ht', hv⟩ := ih h
      exact ⟨t', List.mem_cons_of_mem _ ht', hv⟩

/-- Insertion keeps exactly the old elements plus the inserted one. -/
theorem mem_insertPos (u t : Token) (l : List Token) (h : u ∈ insertPos t l) :
    u = t ∨ u ∈ l := by
  induction l with
  | nil =>
    rw [insertPos] at h
    rcases List.mem_singleton.mp h with rfl
    exact Or.inl rfl
  | cons a as ih =>
    rw [insertPos] at h
    by_cases h1 : posLt a t = true
    · rw [if_pos h1] at h
      rcases List.mem_cons.mp h with rfl | h2
      · exact Or.inr (List.mem_cons_self _ _)
      · rcases ih h2 with rfl | h3
        · exact Or.inl rfl
        · exact Or.inr (List.mem_cons_of_mem _ h3)
    · rw [if_neg h1] at h
      rcases List.mem_cons.mp h with rfl | h2
      · exact Or.inl rfl
      · exact Or.inr h2

/-- The position sort permutes the received sequence: membership is
preserved. -/
theorem mem_sortPos (u : Token) (ts : List Token) (h : u ∈ sortPos ts) :
    u ∈ ts := by
  induction ts with
  | nil => cases h
  | cons t ts ih =>
    rw [sortPos] at h
    rcases mem_insertPos u t (sortPos ts) h with rfl | h2
    · exact List.mem_cons_self _ _
    · exact List.mem_cons_of_mem _ (ih h2)

/-- `list.index(x)` never faults when `x` is a member: the found index is
in range. -/
theorem pyIndex_lt_length (ts : List Token) (t : Token) (h : t ∈ ts) :
    pyIndex ts t < ts.length := by
  induction ts with
  | nil => cases h
  | cons a as ih =>
    rw [pyIndex, List.findIdx_cons]
    by_cases h1 : a = t
    · simp [h1]
    · rw [decide_eq_false h1]
      simp only [cond_false, List.length_cons]
      rcases List.mem_cons.mp h with rfl | h2
      · exact absurd rfl h1
      · exact Nat.succ_lt_succ (ih h2)

/-- `findIdx` returns the position of an element none of whose
predecessors satisfies the predicate. -/
theorem findIdx_eq_of_first (p : Token → Bool) (l : List Token) (i : Nat) (x : Token)
    (hget : l.get? i = some x) (hpx : p x = true)
    (hlt : ∀ j y, j < i → l.get? j = some y → p y = false) :
    l.findIdx p = i := by
  induction l generalizing i with
  | nil => cases hget
  | cons a as ih =>
    cases i with
    | zero =>
      have ha : a = x := by
        have : some a = some x := hget
        cases this
        rfl
      subst ha
      rw [List.findIdx_cons, hpx]
      rfl
    | succ n =>
      have hpa : p a = false := hlt 0 a (Nat.succ_pos n) rfl
      rw [List.findIdx_cons, hpa]
      simp only [cond_false]
      have hget' : as.get? n = some x := hget
      have hlt' : ∀ j y, j < n → as.get? j = some y → p y = false :=
        fun j y hj hg => hlt (j + 1) y (Nat.succ_lt_succ hj) hg
      rw [ih n hget' hlt']

/-- The first structurally equal occurrence of a token that has no
earlier duplicate is its own position. -/
theorem pyIndex_eq_of_first (ts : List Token) (i : Nat) (t : Token)
    (hget : ts.get? i = some t)
    (hfirst : ∀ j, j < i → ts.get? j ≠ some t) :
    pyIndex ts t = i := by
  apply findIdx_eq_of_first _ ts i t hget (by simp)
  intro j y hj hg
  by_cases h : y = t
  · subst h
    exact absurd hg (hfirst j hj)
  · exact decide_eq_false h

/-! ## Claims -/

/-- C1 (counterexample): the first label occurrences of `exC1` carry the
extractable values `"11111111"` (ID) and `"01/01/1990"` (DOB), yet the
extraction returns `"22222222"` and `"02/02/1991"` — the values of the
later label occurrences — refuting first-label-occurrence-wins for both
fields. -/
theorem claim_C1_counterexample :
    candId exC1 (mkTok 0 0 "CIVIL NUMBER 11111111") = some "11111111" ∧
    candDobSame (mkTok 20 0 "Date of Birth 01/01/1990") = some "01/01/1990" ∧
    extract_fields_from_text exC1 = ⟨none, some "02/02/1991", some "22222222"⟩ ∧
    (extract_fields_from_text exC1).idNumber ≠ some "11111111" ∧
    (extract_fields_from_text exC1).dob ≠ some "01/01/1990" := by
  refine ⟨by decide, by decide, by decide, by decide, by decide⟩

/-- C1 (amended): within Pass 1, later label matches DO overwrite
earlier ones.  The ID number after Pass 1 is the candidate of the LAST
label token (in received order) with an extractable value; the date of
birth is the same-token match of the LAST label token having one, and
only when no label token has a same-token match is it the FIRST
successful next-token lookup (that lookup alone is guarded by the field
being still unset). -/
theorem claim_C1_last_label_wins (ts : List Token) :
    (pass1 ts).2 = lastCand (candId ts) ts ∧
    (pass1 ts).1 =
      (match lastCand candDobSame ts with
       | some v => some v
       | none => firstCand (candDobNext ts) ts) :=
  ⟨pass1_id_eq ts, pass1_dob_eq ts⟩

/-- C2: for the received sequence `["CIVIL NUMBER", "12345678"]` the
extraction takes the ID number from the token following the label, and
for `["Date of Birth", "15/03/1990"]` it takes the date of birth from
the token following the label. -/
theorem claim_C2_label_adjacent_scenarios :
    extract_fields_from_text exA = ⟨none, none, some "12345678"⟩ ∧
    extract_fields_from_text exB = ⟨none, some "15/03/1990", none⟩ := by
  refine ⟨by decide, by decide⟩

/-- C3: a field value assigned by Pass 1 is returned unchanged — Pass 2
never replaces it — and Pass 2's result is returned for a field exactly
when that field is still absent after Pass 1. -/
theorem claim_C3_pass_priority (ts : List Token) (v : String) :
    ((pass1 ts).2 = some v → (extract_fields_from_text ts).idNumber = some v) ∧
    ((pass1 ts).1 = some v → (extract_fields_from_text ts).dob = some v) ∧
    ((pass1 ts).2 = none → (extract_fields_from_text ts).idNumber = pass2Id ts) ∧
    ((pass1 ts).1 = none → (extract_fields_from_text ts).dob = pass2Dob ts) :=
  ⟨extract_id_of_pass1_some ts v, extract_dob_of_pass1_some ts v,
   extract_id_of_pass1_none ts, extract_dob_of_pass1_none ts⟩

/-- C3 (witness): on `exA` both a label-adjacent and a global-regex
match exist for the ID number, and the label-adjacent (Pass-1) value is
the one returned; likewise for the DOB on `exB`. -/
theorem claim_C3_witness :
    (extract_fields_from_text exA).idNumber = some "12345678" ∧
    (extract_fields_from_text exB).dob = some "15/03/1990" :=
  ⟨(claim_C3_pass_priority exA "12345678").1 (by decide),
   (claim_C3_pass_priority exB "15/03/1990").2.1 (by decide)⟩

/-- C4: the name is the stripped text of the first token in
position-sorted order whose stripped text contains an Arabic-block
character, splits into 2–4 words, contains no digit and contains no
indicator substring (`nameQualifies`); if no token qualifies the name is
absent (`find?` returns `none`). -/
theorem claim_C4_name_first_qualifying (ts : List Token) :
    (extract_fields_from_text ts).name =
      ((sortPos ts).find? nameQualifies).map fun t => String.mk (pyStrip t.text.data) := by
  have h : (extract_fields_from_text ts).name = namePass (sortPos ts) := rfl
  rw [h, namePass_eq_find]

/-- C5: on the lone token `"123456789"` (which contains no label
indicator) the strict pattern `\b\d{8}\b` fails to match entirely, the
looser `\b\d{8,10}\b` matches the whole token, and the extraction
returns `idNumber = "123456789"`. -/
theorem claim_C5_pattern_precedence :
    isLabel idIndicators (pyStrip ("123456789" : String).data) = false ∧
    isLabel dobIndicators (pyStrip ("123456789" : String).data) = false ∧
    searchRun 8 8 false ("123456789" : String).data = none ∧
    searchRun 8 10 false ("123456789" : String).data = some ("123456789" : String).data ∧
    (extract_fields_from_text ex5).idNumber = some "123456789" := by
  refine ⟨by decide, by decide, by decide, by decide, by decide⟩

/-- C6 (counterexample): in `ex6` the label token at position 2 is a
verbatim duplicate of the token at position 0, so the adjacent-token
lookup consults the successor of position 0 (`"hello"`, no digits)
instead of the token at position 3 (`"1234"`): the code extracts no ID
number, while a lookup at position `i + 1` would extract `"1234"`. -/
theorem claim_C6_counterexample :
    (extract_fields_from_text ex6).idNumber = none ∧
    pass1IdPositional ex6 = some "1234" := by
  refine ⟨by decide, by decide⟩

/-- C6 (amended): the adjacent-token lookup consults the successor of
the FIRST structurally equal occurrence of the label token; this
coincides with the token at position `i + 1` exactly when no earlier
position holds a structurally identical token. -/
theorem claim_C6_next_of_first_occurrence (ts : List Token) (i : Nat) (t : Token)
    (hget : ts.get? i = some t)
    (hfirst : ∀ j, j < i → ts.get? j ≠ some t) :
    candId ts t = candIdPositionalAt ts i t := by
  simp only [candId, candIdPositionalAt, pyIndex_eq_of_first ts i t hget hfirst]

/-- C6 (witness): on `exA` (no duplicates) the lookup at the label token
in position 0 is the positional one. -/
theorem claim_C6_witness :
    candId exA (mkTok 0 0 "CIVIL NUMBER") =
      candIdPositionalAt exA 0 (mkTok 0 0 "CIVIL NUMBER") :=
  claim_C6_next_of_first_occurrence exA 0 (mkTok 0 0 "CIVIL NUMBER") (by decide)
    (fun j hj => absurd hj (Nat.not_lt_zero j))

/-- C7: the empty token sequence yields all three fields absent, and the
single partial operation of the extraction — the `list.index` lookup of
a label token — always succeeds, its result being in range whenever the
sought token is a member (which it always is: it came from iterating the
list).  The embedding is otherwise built from total operations, so no
input can make the extraction fail. -/
theorem claim_C7_never_fails :
    extract_fields_from_text [] = ⟨none, none, none⟩ ∧
    ∀ (ts : List Token) (t : Token), t ∈ ts → pyIndex ts t < ts.length :=
  ⟨rfl, pyIndex_lt_length⟩

/-- C7 (witness): the index lookup is in range on a concrete member. -/
theorem claim_C7_witness :
    pyIndex exA (mkTok 0 0 "CIVIL NUMBER") < exA.length :=
  claim_C7_never_fails.2 exA (mkTok 0 0 "CIVIL NUMBER") (by decide)

/-- C8 (counterexample): the last token of `ex8` is an ID label token
with no same-token digits, yet its Pass-1 processing is NOT skipped: it
re-runs the adjacent lookup of its earlier verbatim duplicate and
overwrites the ID number (`"999"` after the first three tokens) with
`"111"`, so the field does not simply remain as it was. -/
theorem claim_C8_counterexample :
    isLabel idIndicators (pyStrip (mkTok 0 0 "CIVIL NUMBER").text.data) = true ∧
    firstDigitRun (pyStrip (mkTok 0 0 "CIVIL NUMBER").text.data) = none ∧
    (pass1 ex8pre).2 = some "999" ∧
    (pass1 ex8).2 = some "111" ∧
    (extract_fields_from_text ex8).idNumber = some "111" := by
  refine ⟨by decide, by decide, by decide, by decide, by decide⟩

/-- C8 (amended): when the last token is a label token with no
same-token value AND no earlier token is structurally identical to it
(so its first occurrence is the last position), the adjacent-token
lookup is skipped — the guard `idx + 1 < len` fails — and processing it
leaves the field unchanged; no out-of-range access occurs in any case
(see C7). -/
theorem claim_C8_last_label_skipped (ts : List Token) (t : Token)
    (st : Option String × Option String)
    (hfirst : pyIndex (ts ++ [t]) t = ts.length) :
    (isLabel idIndicators (pyStrip t.text.data) = true →
      firstDigitRun (pyStrip t.text.data) = none →
      idStep (ts ++ [t]) st.2 t = st.2) ∧
    (isLabel dobIndicators (pyStrip t.text.data) = true →
      searchDob (pyStrip t.text.data) = none →
      dobStep (ts ++ [t]) st.1 t = st.1) := by
  have hlen : ¬ (ts.length + 1 < (ts ++ [t]).length) := by simp
  constructor
  · intro hlab hrun
    simp only [idStep, hrun, hfirst, if_pos hlab]
    rw [if_neg hlen]
  · intro hlab hsd
    simp only [dobStep, hsd, hfirst, if_pos hlab]
    by_cases h3 : pyFalsy st.1 = true
    · rw [if_pos h3, if_neg hlen]
    · rw [if_neg h3]

/-- C8 (witness): a duplicate-free two-token sequence ending in a label
token: processing the final label token leaves the ID state unchanged. -/
theorem claim_C8_witness :
    idStep ([mkTok 10 0 "hello"] ++ [mkTok 0 0 "CIVIL NUMBER"])
        ((none : Option String), (none : Option String)).2 (mkTok 0 0 "CIVIL NUMBER") =
      ((none : Option String), (none : Option String)).2 :=
  (claim_C8_last_label_skipped [mkTok 10 0 "hello"] (mkTok 0 0 "CIVIL NUMBER")
    (none, none) (by decide)).1 (by decide) (by decide)

/-- C9: the extraction is a pure function of the received token
sequence: identical inputs give identical outcomes. -/
theorem claim_C9_deterministic (ts ts' : List Token) (h : ts = ts') :
    extract_fields_from_text ts = extract_fields_from_text ts' := by
  rw [h]

/-- C9 (witness): two invocations on the same concrete sequence. -/
theorem claim_C9_witness :
    extract_fields_from_text exA = extract_fields_from_text exA :=
  claim_C9_deterministic exA exA rfl

/-- C10: every returned field value derives from the input texts: a
returned ID number or date of birth is a contiguous character segment of
some input token's text, and a returned name is the text of some input
token with leading and trailing whitespace stripped (hence also a
segment of it). -/
theorem claim_C10_provenance (ts : List Token) :
    (∀ v, (extract_fields_from_text ts).idNumber = some v →
      ∃ t, t ∈ ts ∧ SegIn v.data t.text.data) ∧
    (∀ v, (extract_fields_from_text ts).dob = some v →
      ∃ t, t ∈ ts ∧ SegIn v.data t.text.data) ∧
    (∀ v, (extract_fields_from_text ts).name = some v →
      ∃ t, t ∈ ts ∧ v = String.mk (pyStrip t.text.data) ∧ SegIn v.data t.text.data) := by
  refine ⟨?_, ?_, ?_⟩
  · intro v hv
    cases h1 : (pass1 ts).2 with
    | some w =>
      rw [extract_id_of_pass1_some ts w h1] at hv
      cases hv
      rw [pass1_id_eq] at h1
      obtain ⟨t, ht, hc⟩ := lastCand_exists _ _ _ h1
      rcases (candId_segIn ts t v hc).2 with hseg | ⟨nt, hnt, hseg⟩
      · exact ⟨t, ht, hseg⟩
      · exact ⟨nt, hnt, hseg⟩
    | none =>
      rw [extract_id_of_pass1_none ts h1] at hv
      obtain ⟨_, t, ht, hseg⟩ := pass2Id_spec ts v hv
      exact ⟨t, ht, hseg⟩
  · intro v hv
    cases h1 : (pass1 ts).1 with
    | some w =>
      rw [extract_dob_of_pass1_some ts w h1] at hv
      cases hv
      rw [pass1_dob_eq] at h1
      cases h2 : lastCand candDobSame ts with
      | some u =>
        rw [h2] at h1
        cases h1
        obtain ⟨t, ht, hc⟩ := lastCand_exists _ _ _ h2
        exact ⟨t, ht, (candDobSame_spec t v hc).2⟩
      | none =>
        rw [h2] at h1
        obtain ⟨t, ht, hc⟩ := firstCand_exists _ _ _ h1
        obtain ⟨_, nt, hnt, hseg⟩ := candDobNext_spec ts t v hc
        exact ⟨nt, hnt, hseg⟩
    | none =>
      rw [extract_dob_of_pass1_none ts h1] at hv
      obtain ⟨_, t, ht, hseg⟩ := pass2Dob_spec ts v hv
      exact ⟨t, ht, hseg⟩
  · intro v hv
    have h : namePass (sortPos ts) = some v := hv
    obtain ⟨t, ht, hveq⟩ := namePass_exists _ _ h
    refine ⟨t, mem_sortPos t ts ht, hveq, ?_⟩
    rw [hveq]
    exact segIn_trans _ _ _ (by exact ⟨[], [], by simp⟩) (segIn_pyStrip _)

/-- C10 (witness): the returned ID number of scenario A is a segment of
the second token's text. -/
theorem claim_C10_witness :
    ∃ t, t ∈ exA ∧ SegIn ("12345678" : String).data t.text.data :=
  (claim_C10_provenance exA).1 "12345678" (by decide)
